import Mathlib

/-!
Verification of the generation-protected arena allocator
(`search::datastore::DataStoreBase`, `datastorebase.h`).

The header under `src/` provides the class layout and the inline member
functions (`nextBufferId`, `ensureBufferCapacity`, `hasElemHold1`,
`getBufferEntry`, `incDead`, `MemStats` and its `operator+=`,
`activeBuffer`).  The out-of-line member functions (`switchActiveBuffer`,
`holdBuffer`, `doneHoldBuffer`, `transferHoldLists`, `trimHoldLists`,
`finishCompact`, `getMemStats`) are only declared there; their bodies are
modelled from the specification, as marked on each definition.

Machine-integer conventions: generation counters, references, lengths and
element counts are modelled as `Nat` (they count allocated elements, and
the properties verified here are order comparisons, where 64-bit wraparound
never occurs for physically realisable counts).  `MemStats` accumulation,
whose `operator+=` is the machine addition itself, is modelled with explicit
wraparound `% 2^64` / `% 2^32`.
-/

namespace Datastore

/-- Wraparound modulus of a `uint64_t` field. -/
def U64 : Nat := 2 ^ 64

/-- Wraparound modulus of a `uint32_t` field. -/
def U32 : Nat := 2 ^ 32

/-! ## Hold-list elements (`ElemHold1ListElem`, `ElemHold2ListElem`) -/

/-- `ElemHold1ListElem`: entry of the hold list before freeze
(`{_ref, _len}` in the header). -/
structure ElemHold1ListElem where
  ref : Nat
  len : Nat
deriving DecidableEq, Repr

/-- `ElemHold2ListElem`: entry of the hold list at freeze; extends the
hold1 entry with the stamped generation (`_generation`). -/
structure ElemHold2ListElem where
  ref : Nat
  len : Nat
  generation : Nat
deriving DecidableEq, Repr

/-- Stamping a pending (hold1) entry with a generation, as the
`ElemHold2ListElem(const ElemHold1ListElem &, generation_t)` constructor does. -/
def ElemHold1ListElem.stamp (e : ElemHold1ListElem) (generation : Nat) :
    ElemHold2ListElem :=
  { ref := e.ref, len := e.len, generation := generation }

/-! ## MemStats (fully given in the header) -/

/-- `DataStoreBase::MemStats`: eleven counters, eight `uint64_t` and three
`uint32_t` (named `_allocElems` … `_holdBuffers` in the header). -/
structure MemStats where
  allocElems : Nat
  usedElems : Nat
  deadElems : Nat
  holdElems : Nat
  allocBytes : Nat
  usedBytes : Nat
  deadBytes : Nat
  holdBytes : Nat
  freeBuffers : Nat
  activeBuffers : Nat
  holdBuffers : Nat
deriving DecidableEq, Repr

/-- The default constructor `MemStats(void)`: every counter zero. -/
def MemStats.init : MemStats :=
  ⟨0, 0, 0, 0, 0, 0, 0, 0, 0, 0, 0⟩

/-- `MemStats::operator+=`: componentwise machine addition (wrapping at the
field width, `uint64_t` for element/byte counters, `uint32_t` for buffer
counters). -/
def MemStats.add (a b : MemStats) : MemStats where
  allocElems := (a.allocElems + b.allocElems) % U64
  usedElems := (a.usedElems + b.usedElems) % U64
  deadElems := (a.deadElems + b.deadElems) % U64
  holdElems := (a.holdElems + b.holdElems) % U64
  allocBytes := (a.allocBytes + b.allocBytes) % U64
  usedBytes := (a.usedBytes + b.usedBytes) % U64
  deadBytes := (a.deadBytes + b.deadBytes) % U64
  holdBytes := (a.holdBytes + b.holdBytes) % U64
  freeBuffers := (a.freeBuffers + b.freeBuffers) % U32
  activeBuffers := (a.activeBuffers + b.activeBuffers) % U32
  holdBuffers := (a.holdBuffers + b.holdBuffers) % U32

/-- Well-formedness of a `MemStats` value: every field is a representable
machine integer of its declared width. -/
def MemStats.WF (s : MemStats) : Prop :=
  s.allocElems < U64 ∧ s.usedElems < U64 ∧ s.deadElems < U64 ∧
  s.holdElems < U64 ∧ s.allocBytes < U64 ∧ s.usedBytes < U64 ∧
  s.deadBytes < U64 ∧ s.holdBytes < U64 ∧ s.freeBuffers < U32 ∧
  s.activeBuffers < U32 ∧ s.holdBuffers < U32

instance (s : MemStats) : Decidable s.WF := by
  unfold MemStats.WF; infer_instance

/-! ## Buffer state

`bufferstate.h` is not part of the sampled sources.
Modelled from the spec: a Buffer carries "type id, backing storage
pointer/extent, capacity, `usedElems`, `deadElems`, lifecycle state ∈
{Free, Active, Held}", with `elemSize` coming from the per-type descriptor;
`remaining` is the number of free elements at the end of the buffer. -/

/-- Lifecycle state of a buffer slot: `Free → Active → Held → Free`. -/
inductive BufferLifecycle where
  | Free
  | Active
  | Held
deriving DecidableEq, Repr

/-- Modelled from the spec: per-buffer mutable state record (the
`BufferState` of `bufferstate.h`, which is outside the sampled sources). -/
structure BufferState where
  state : BufferLifecycle
  typeId : Nat
  capacity : Nat
  usedElems : Nat
  deadElems : Nat
  elemSize : Nat
deriving DecidableEq, Repr

/-- Out-of-range reads of the `_states` vector are modelled by this default
slot; it is deliberately not `Free` so that a buffer-scan can never "find"
a slot that does not exist. -/
def dfltBuffer : BufferState :=
  ⟨BufferLifecycle.Held, 0, 0, 0, 0, 0⟩

instance : Inhabited BufferState := ⟨dfltBuffer⟩

/-- Modelled from the spec: `BufferState::remaining()`, the number of free
elements at the end of the buffer (`capacity - usedElems`). -/
def BufferState.remaining (b : BufferState) : Nat :=
  b.capacity - b.usedElems

/-! ## The arena (`DataStoreBase`) -/

/-- `DataStoreBase`: the arena state.  `states` is `_states`,
`activeBufferIds` is `_activeBufferIds` (typeId → active buffer id),
`buffers` is `_buffers` (per-slot backing storage, `none` when the slot
has no allocation), `typeHandlers` records each registered type's element
size (the slice of `_typeHandlers` the model needs), and the two hold
lists are `_elemHold1List` / `_elemHold2List`. -/
structure DataStoreBase where
  numBuffers : Nat
  states : List BufferState
  activeBufferIds : List Nat
  typeHandlers : List Nat
  buffers : List (Option (List Nat))
  elemHold1List : List ElemHold1ListElem
  elemHold2List : List ElemHold2ListElem
deriving DecidableEq, Repr

/-- The buffer-state record of slot `bufferId` (`_states[bufferId]`). -/
def DataStoreBase.stateAt (s : DataStoreBase) (bufferId : Nat) : BufferState :=
  s.states.getD bufferId dfltBuffer

/-- `getActiveBufferId(typeId)`: `_activeBufferIds[typeId]`. -/
def DataStoreBase.getActiveBufferId (s : DataStoreBase) (typeId : Nat) : Nat :=
  s.activeBufferIds.getD typeId 0

/-- `hasElemHold1()`: `!_elemHold1List.empty()` (inline in the header). -/
def DataStoreBase.hasElemHold1 (s : DataStoreBase) : Bool :=
  !s.elemHold1List.isEmpty

/-- `nextBufferId(bufferId)` (inline in the header):
`ret = bufferId + 1; if (ret == _numBuffers) ret = 0; return ret`. -/
def DataStoreBase.nextBufferId (s : DataStoreBase) (bufferId : Nat) : Nat :=
  let ret := bufferId + 1
  if ret = s.numBuffers then 0 else ret

/-- `getBufferEntry<EntryType>(bufferId, offset)` (inline in the header) is
`static_cast<EntryType *>(_buffers[bufferId]) + offset` — raw pointer
arithmetic with no validation of `bufferId`, of whether the slot has a
backing allocation, or of `offset`.  The embedding returns `none` exactly
where the C++ dereference would be undefined. -/
def DataStoreBase.getBufferEntry (s : DataStoreBase) (bufferId offset : Nat) :
    Option Nat :=
  match s.buffers.getD bufferId none with
  | none => none
  | some content => content.getD offset 0 |> fun v =>
      if offset < content.length then some v else none

/-- `incDead(bufferId, dead)` (inline in the header):
`_states[bufferId]._deadElems += dead` — unconditional addition, with no
comparison against `_usedElems`. -/
def DataStoreBase.incDead (s : DataStoreBase) (bufferId dead : Nat) :
    DataStoreBase :=
  let st := s.stateAt bufferId
  let st2 := { st with deadElems := st.deadElems + dead }
  { s with states := s.states.set bufferId st2 }

/-! ## Hold-list operations -/

/-- Modelled from the spec: `transferHoldLists(generation)` (declared only
in the header) "moves every pending entry to the stamped list, attaching
`generation`"; the pending list is empty afterwards. -/
def DataStoreBase.transferHoldLists (s : DataStoreBase) (generation : Nat) :
    DataStoreBase :=
  { s with
      elemHold1List := []
      elemHold2List :=
        s.elemHold2List ++ s.elemHold1List.map (fun e => e.stamp generation) }

/-- Modelled from the spec: the release loop of `trimHoldLists(usedGen)`
(declared only in the header) "scans the stamped list from its oldest end
and releases every entry whose stamped generation is strictly less than
`usedGen`; stops at the first entry that is still protected".  Returns the
pair (released entries, remaining list). -/
def trimElemHold2 (usedGen : Nat) :
    List ElemHold2ListElem → List ElemHold2ListElem × List ElemHold2ListElem
  | [] => ([], [])
  | e :: rest =>
    if e.generation < usedGen then
      let p := trimElemHold2 usedGen rest
      (e :: p.1, p.2)
    else ([], e :: rest)

/-- Modelled from the spec: `trimHoldLists(usedGen)` applied to the arena:
the stamped list is replaced by what the release loop keeps. -/
def DataStoreBase.trimHoldLists (s : DataStoreBase) (usedGen : Nat) :
    DataStoreBase :=
  { s with elemHold2List := (trimElemHold2 usedGen s.elemHold2List).2 }

/-- The entries `trimHoldLists(usedGen)` releases on one call. -/
def DataStoreBase.releasedByTrim (s : DataStoreBase) (usedGen : Nat) :
    List ElemHold2ListElem :=
  (trimElemHold2 usedGen s.elemHold2List).1

/-! ## Buffer switching -/

/-- Modelled from the spec: the round-robin scan of `switchActiveBuffer`
— "scan buffer slots round-robin from the last-used id, skipping slots in
Active or Held state", stepping with `nextBufferId` and giving up after a
full cycle of `numBuffers` steps (the fuel).  Returns the first `Free`
slot found. -/
def findFreeBufferAux (s : DataStoreBase) : Nat → Nat → Option Nat
  | 0, _ => none
  | fuel + 1, b =>
    let nb := s.nextBufferId b
    if (s.stateAt nb).state = BufferLifecycle.Free then some nb
    else findFreeBufferAux s fuel nb

/-- The scan of `switchActiveBuffer`, started from the last-used buffer id. -/
def DataStoreBase.findFreeBuffer (s : DataStoreBase) (start : Nat) :
    Option Nat :=
  findFreeBufferAux s s.numBuffers start

/-- Modelled from the spec: `onActive(bufferId, typeId, sizeNeeded, _)`
— "allocate backing storage sized to satisfy `sizeNeeded` … and mark it
Active": the slot becomes Active for `typeId` with fresh counters and a
backing allocation of `sizeNeeded` elements (the geometric growth schedule
only affects how much larger than `sizeNeeded` the allocation may be, which
no verified property depends on). -/
def DataStoreBase.onActive (s : DataStoreBase)
    (bufferId typeId sizeNeeded : Nat) : DataStoreBase :=
  let es := s.typeHandlers.getD typeId 0
  let st : BufferState :=
    { state := BufferLifecycle.Active, typeId := typeId,
      capacity := sizeNeeded, usedElems := 0, deadElems := 0, elemSize := es }
  { s with
      states := s.states.set bufferId st
      buffers := s.buffers.set bufferId (some (List.replicate sizeNeeded 0)) }

/-- Marking a slot Held, leaving every other attribute of the slot alone. -/
def DataStoreBase.setHeld (s : DataStoreBase) (bufferId : Nat) :
    DataStoreBase :=
  let st := s.stateAt bufferId
  let st2 := { st with state := BufferLifecycle.Held }
  { s with states := s.states.set bufferId st2 }

/-- Modelled from the spec: the fallback of `switchActiveBuffer` when no
Free slot exists — "reallocate larger storage in place": the current
buffer's capacity grows so that `sizeNeeded` elements are free at its end;
its used/dead counters and lifecycle state are untouched. -/
def DataStoreBase.fallbackGrow (s : DataStoreBase)
    (bufferId sizeNeeded : Nat) : DataStoreBase :=
  let st := s.stateAt bufferId
  let st2 := { st with capacity := st.usedElems + sizeNeeded }
  { s with
      states := s.states.set bufferId st2
      buffers := s.buffers.set bufferId
        (some (List.replicate (st.usedElems + sizeNeeded) 0)) }

/-- Modelled from the spec: `switchActiveBuffer(typeId, sizeNeeded)`
(declared only in the header) — scan round-robin from the last-used id for
a Free slot; on success the previous active buffer "transitions to Held",
the found slot is activated via `onActive` and recorded in
`_activeBufferIds[typeId]`; with no Free slot the current buffer is grown
in place (`fallbackGrow`). -/
def DataStoreBase.switchActiveBuffer (s : DataStoreBase)
    (typeId sizeNeeded : Nat) : DataStoreBase :=
  let cur := s.getActiveBufferId typeId
  match s.findFreeBuffer cur with
  | some b =>
    let s1 := s.setHeld cur
    let s2 := s1.onActive b typeId sizeNeeded
    { s2 with activeBufferIds := s2.activeBufferIds.set typeId b }
  | none => s.fallbackGrow cur sizeNeeded

/-- `ensureBufferCapacity(typeId, sizeNeeded)` (inline in the header):
`if (sizeNeeded > _states[_activeBufferIds[typeId]].remaining())
switchActiveBuffer(typeId, sizeNeeded);`. -/
def DataStoreBase.ensureBufferCapacity (s : DataStoreBase)
    (typeId sizeNeeded : Nat) : DataStoreBase :=
  if (s.stateAt (s.getActiveBufferId typeId)).remaining < sizeNeeded then
    s.switchActiveBuffer typeId sizeNeeded
  else s

/-- Modelled from the spec: `holdBuffer(bufferId)` (declared only in the
header) — "explicit entry of Held state, used by compaction to retire
superseded buffers". -/
def DataStoreBase.holdBuffer (s : DataStoreBase) (bufferId : Nat) :
    DataStoreBase :=
  s.setHeld bufferId

/-- Modelled from the spec: `doneHoldBuffer(bufferId)` (declared only in
the header) — "exit of Held state": the slot returns to Free and its
backing storage is returned to the allocator. -/
def DataStoreBase.doneHoldBuffer (s : DataStoreBase) (bufferId : Nat) :
    DataStoreBase :=
  let st2 : BufferState :=
    { state := BufferLifecycle.Free, typeId := 0, capacity := 0,
      usedElems := 0, deadElems := 0, elemSize := 0 }
  { s with
      states := s.states.set bufferId st2
      buffers := s.buffers.set bufferId none }

/-- Modelled from the spec: `finishCompact(toHold)` (declared only in the
header) — "moves the given buffers to Held state". -/
def DataStoreBase.finishCompact (s : DataStoreBase) (toHold : List Nat) :
    DataStoreBase :=
  toHold.foldl (fun acc b => acc.setHeld b) s

/-! ## Memory statistics -/

/-- Modelled from the spec: the contribution of one buffer slot to
`getMemStats()` — "aggregate counts (alloc/used/dead/held elements and
bytes, buffer counts by state)".  A Free slot has no allocation and only
bumps the Free-buffer count; an Active slot reports its alloc/used/dead
counters; a Held slot additionally reports its still-live elements as
held. -/
def perBufferStats (b : BufferState) : MemStats :=
  match b.state with
  | BufferLifecycle.Free =>
    { MemStats.init with freeBuffers := 1 }
  | BufferLifecycle.Active =>
    { allocElems := b.capacity, usedElems := b.usedElems,
      deadElems := b.deadElems, holdElems := 0,
      allocBytes := b.capacity * b.elemSize,
      usedBytes := b.usedElems * b.elemSize,
      deadBytes := b.deadElems * b.elemSize, holdBytes := 0,
      freeBuffers := 0, activeBuffers := 1, holdBuffers := 0 }
  | BufferLifecycle.Held =>
    { allocElems := b.capacity, usedElems := b.usedElems,
      deadElems := b.deadElems,
      holdElems := b.usedElems - b.deadElems,
      allocBytes := b.capacity * b.elemSize,
      usedBytes := b.usedElems * b.elemSize,
      deadBytes := b.deadElems * b.elemSize,
      holdBytes := (b.usedElems - b.deadElems) * b.elemSize,
      freeBuffers := 0, activeBuffers := 0, holdBuffers := 1 }

/-- Modelled from the spec: `getMemStats()` (declared only in the header,
`const`) — accumulates each slot's contribution with `operator+=` into a
default-constructed `MemStats`. -/
def DataStoreBase.getMemStats (s : DataStoreBase) : MemStats :=
  (s.states.map perBufferStats).foldl MemStats.add MemStats.init

/-- The call-level view of the `const` method `getMemStats()`: the result
paired with the arena state after the call. -/
def DataStoreBase.getMemStatsCall (s : DataStoreBase) :
    MemStats × DataStoreBase :=
  (s.getMemStats, s)

/-! ## The operations of the arena as a step relation -/

/-- Buffer id `b` is not the active buffer of any registered type. -/
def DataStoreBase.unmapped (s : DataStoreBase) (b : Nat) : Prop :=
  ∀ t, t < s.activeBufferIds.length → s.getActiveBufferId t ≠ b

instance (s : DataStoreBase) (b : Nat) : Decidable (s.unmapped b) := by
  unfold DataStoreBase.unmapped DataStoreBase.getActiveBufferId
  exact Nat.decidableBallLT _ _

/-- The mutating public operations of `DataStoreBase`. -/
inductive Op where
  | ensureCap (typeId sizeNeeded : Nat)
  | switchActive (typeId sizeNeeded : Nat)
  | holdBuf (bufferId : Nat)
  | doneHoldBuf (bufferId : Nat)
  | finishCompactOp (toHold : List Nat)
  | incDeadOp (bufferId dead : Nat)
  | transferHolds (generation : Nat)
  | trimHolds (usedGen : Nat)
deriving DecidableEq, Repr

/-- One operation of the arena.  The guards are the caller contract of the
spec's error-handling section ("protocol misuse … caller contract
violations", asserted fatal): buffer ids are in range, a buffer is
retired (`holdBuffer`/`finishCompact`) only when Active and only after the
active-buffer mapping has moved off it, and `doneHoldBuffer` only ends an
actual hold. -/
def step (s : DataStoreBase) : Op → Option DataStoreBase
  | Op.ensureCap t n =>
    if t < s.activeBufferIds.length then some (s.ensureBufferCapacity t n)
    else none
  | Op.switchActive t n =>
    if t < s.activeBufferIds.length then some (s.switchActiveBuffer t n)
    else none
  | Op.holdBuf b =>
    if b < s.numBuffers ∧ (s.stateAt b).state = BufferLifecycle.Active ∧
        s.unmapped b then
      some (s.holdBuffer b)
    else none
  | Op.doneHoldBuf b =>
    if b < s.numBuffers ∧ (s.stateAt b).state = BufferLifecycle.Held then
      some (s.doneHoldBuffer b)
    else none
  | Op.finishCompactOp toHold =>
    if ∀ b ∈ toHold, b < s.numBuffers ∧
        (s.stateAt b).state = BufferLifecycle.Active ∧ s.unmapped b then
      some (s.finishCompact toHold)
    else none
  | Op.incDeadOp b d =>
    if b < s.numBuffers then some (s.incDead b d) else none
  | Op.transferHolds g => some (s.transferHoldLists g)
  | Op.trimHolds g => some (s.trimHoldLists g)

/-! ## Invariants -/

/-- The structural invariant of the arena: the `_states` vector covers all
buffer ids, and each registered type's active-buffer entry names an
in-range slot that is Active and records that type. -/
def DataStoreBase.Inv (s : DataStoreBase) : Prop :=
  s.states.length = s.numBuffers ∧
  ∀ t, t < s.activeBufferIds.length →
    s.getActiveBufferId t < s.numBuffers ∧
    (s.stateAt (s.getActiveBufferId t)).state = BufferLifecycle.Active ∧
    (s.stateAt (s.getActiveBufferId t)).typeId = t

instance (s : DataStoreBase) : Decidable s.Inv := by
  unfold DataStoreBase.Inv DataStoreBase.getActiveBufferId DataStoreBase.stateAt
  exact instDecidableAnd

/-- The per-buffer counter invariant: `deadElems ≤ usedElems ≤ capacity`. -/
def DataStoreBase.CountInv (s : DataStoreBase) : Prop :=
  ∀ b, b < s.states.length →
    (s.stateAt b).deadElems ≤ (s.stateAt b).usedElems ∧
    (s.stateAt b).usedElems ≤ (s.stateAt b).capacity

instance (s : DataStoreBase) : Decidable s.CountInv := by
  unfold DataStoreBase.CountInv DataStoreBase.stateAt
  exact Nat.decidableBallLT _ _

/-! ## Example states used by concrete witnesses -/

/-- Overwriting a slot record's lifecycle state with Held. -/
def heldify (x : BufferState) : BufferState :=
  { x with state := BufferLifecycle.Held }

/-- A one-buffer arena in a fully consistent state: one Active buffer of
capacity 4 holding no elements. -/
def c5ex : DataStoreBase :=
  ⟨1, [⟨BufferLifecycle.Active, 0, 4, 0, 0, 1⟩], [0], [1],
    [some [0, 0, 0, 0]], [], []⟩

/-- An arena with a stamped hold list carrying generations 3 then 5
(oldest first). -/
def exHold : DataStoreBase :=
  ⟨1, [], [], [], [], [], [⟨1, 1, 3⟩, ⟨2, 1, 5⟩]⟩

/-- A two-slot arena: slot 0 Active for type 0 with 2 of 4 elements used,
slot 1 Free. -/
def exArena : DataStoreBase :=
  ⟨2, [⟨BufferLifecycle.Active, 0, 4, 2, 0, 1⟩,
       ⟨BufferLifecycle.Free, 0, 0, 0, 0, 0⟩],
    [0], [1], [some [0, 0, 0, 0], none], [], []⟩

/-- A two-slot arena where slot 1 is Active yet no longer any type's
active buffer (the situation `finishCompact`/`holdBuffer` retire). -/
def exArenaB : DataStoreBase :=
  ⟨2, [⟨BufferLifecycle.Active, 0, 4, 2, 0, 1⟩,
       ⟨BufferLifecycle.Active, 0, 3, 1, 1, 1⟩],
    [0], [1], [some [0, 0, 0, 0], some [0, 0, 0]], [], []⟩

/-- A fully populated statistics record. -/
def exStats : MemStats :=
  ⟨1, 2, 3, 4, 5, 6, 7, 8, 9, 10, 11⟩

/-! ## List helper lemmas -/

theorem getD_set_self {α : Type} (l : List α) (i : Nat) (a d : α)
    (h : i < l.length) : (l.set i a).getD i d = a := by
  rw [List.getD_eq_getElem?_getD, List.getElem?_set_self h]
  rfl

theorem getD_set_ne {α : Type} (l : List α) (i j : Nat) (a d : α)
    (h : i ≠ j) : (l.set i a).getD j d = l.getD j d := by
  rw [List.getD_eq_getElem?_getD, List.getElem?_set_ne h,
    ← List.getD_eq_getElem?_getD]

theorem getD_set_oob {α : Type} (l : List α) (i : Nat) (a d : α)
    (h : ¬ i < l.length) : (l.set i a).getD i d = l.getD i d := by
  rw [List.set_eq_of_length_le (Nat.le_of_not_lt h)]

/-! ## Frame lemmas for the single-slot operations -/

theorem setHeld_frame (s : DataStoreBase) (b : Nat) :
    (s.setHeld b).numBuffers = s.numBuffers ∧
    (s.setHeld b).activeBufferIds = s.activeBufferIds ∧
    (s.setHeld b).states.length = s.states.length ∧
    (s.setHeld b).typeHandlers = s.typeHandlers := by
  refine ⟨rfl, rfl, ?_, rfl⟩
  simp [DataStoreBase.setHeld]

theorem stateAt_setHeld_ne (s : DataStoreBase) (b j : Nat) (h : b ≠ j) :
    (s.setHeld b).stateAt j = s.stateAt j :=
  getD_set_ne _ _ _ _ _ h

theorem stateAt_setHeld_self (s : DataStoreBase) (b : Nat)
    (h : b < s.states.length) :
    (s.setHeld b).stateAt b =
      { s.stateAt b with state := BufferLifecycle.Held } :=
  getD_set_self _ _ _ _ h

theorem stateAt_setHeld_or (s : DataStoreBase) (b j : Nat) :
    (s.setHeld b).stateAt j = s.stateAt j ∨
    (s.setHeld b).stateAt j =
      { s.stateAt j with state := BufferLifecycle.Held } := by
  by_cases hbj : b = j
  · subst hbj
    by_cases hb : b < s.states.length
    · exact Or.inr (stateAt_setHeld_self s b hb)
    · exact Or.inl (getD_set_oob _ _ _ _ hb)
  · exact Or.inl (stateAt_setHeld_ne s b j hbj)

theorem incDead_frame (s : DataStoreBase) (b d : Nat) :
    (s.incDead b d).numBuffers = s.numBuffers ∧
    (s.incDead b d).activeBufferIds = s.activeBufferIds ∧
    (s.incDead b d).states.length = s.states.length := by
  refine ⟨rfl, rfl, ?_⟩
  simp [DataStoreBase.incDead]

theorem stateAt_incDead_ne (s : DataStoreBase) (b d j : Nat) (h : b ≠ j) :
    (s.incDead b d).stateAt j = s.stateAt j :=
  getD_set_ne _ _ _ _ _ h

theorem stateAt_incDead_self (s : DataStoreBase) (b d : Nat)
    (h : b < s.states.length) :
    (s.incDead b d).stateAt b =
      { s.stateAt b with deadElems := (s.stateAt b).deadElems + d } :=
  getD_set_self _ _ _ _ h

theorem stateAt_incDead_state (s : DataStoreBase) (b d j : Nat) :
    ((s.incDead b d).stateAt j).state = (s.stateAt j).state ∧
    ((s.incDead b d).stateAt j).typeId = (s.stateAt j).typeId := by
  by_cases hbj : b = j
  · subst hbj
    by_cases hb : b < s.states.length
    · rw [stateAt_incDead_self s b d hb]; exact ⟨rfl, rfl⟩
    · have heq : (s.incDead b d).stateAt b = s.stateAt b :=
        getD_set_oob _ _ _ _ hb
      rw [heq]; exact ⟨rfl, rfl⟩
  · rw [stateAt_incDead_ne s b d j hbj]; exact ⟨rfl, rfl⟩

theorem doneHoldBuffer_frame (s : DataStoreBase) (b : Nat) :
    (s.doneHoldBuffer b).numBuffers = s.numBuffers ∧
    (s.doneHoldBuffer b).activeBufferIds = s.activeBufferIds ∧
    (s.doneHoldBuffer b).states.length = s.states.length := by
  refine ⟨rfl, rfl, ?_⟩
  simp [DataStoreBase.doneHoldBuffer]

theorem stateAt_doneHoldBuffer_ne (s : DataStoreBase) (b j : Nat)
    (h : b ≠ j) : (s.doneHoldBuffer b).stateAt j = s.stateAt j :=
  getD_set_ne _ _ _ _ _ h

theorem stateAt_doneHoldBuffer_self (s : DataStoreBase) (b : Nat)
    (h : b < s.states.length) :
    (s.doneHoldBuffer b).stateAt b =
      { state := BufferLifecycle.Free, typeId := 0, capacity := 0,
        usedElems := 0, deadElems := 0, elemSize := 0 } :=
  getD_set_self _ _ _ _ h

/-! ## Theorems about the hold lists -/

/-- C8: `hasElemHold1()` is true exactly when the pending (hold1) list is
non-empty. -/
theorem hasElemHold1_iff (s : DataStoreBase) :
    s.hasElemHold1 = true ↔ s.elemHold1List ≠ [] := by
  simp [DataStoreBase.hasElemHold1, List.isEmpty_iff]

/-- C2: `transferHoldLists(generation)` empties the pending list (so
`hasElemHold1()` turns false), every pending entry reappears on the stamped
list stamped with exactly the generation passed at the call, and every
stamped entry after the call is either an old stamped entry or a
transferred pending entry stamped with that generation. -/
theorem transferHoldLists_correct (s : DataStoreBase) (g : Nat) :
    (s.transferHoldLists g).elemHold1List = [] ∧
    (s.transferHoldLists g).hasElemHold1 = false ∧
    (∀ e ∈ s.elemHold1List,
      e.stamp g ∈ (s.transferHoldLists g).elemHold2List ∧
      (e.stamp g).generation = g ∧ (e.stamp g).ref = e.ref ∧
      (e.stamp g).len = e.len) ∧
    (∀ e ∈ (s.transferHoldLists g).elemHold2List,
      e ∈ s.elemHold2List ∨
      (e.generation = g ∧ (⟨e.ref, e.len⟩ : ElemHold1ListElem) ∈ s.elemHold1List)) := by
  refine ⟨rfl, rfl, ?_, ?_⟩
  · intro e he
    refine ⟨?_, rfl, rfl, rfl⟩
    simp only [DataStoreBase.transferHoldLists, List.mem_append, List.mem_map]
    exact Or.inr ⟨e, he, rfl⟩
  · intro e he
    simp only [DataStoreBase.transferHoldLists, List.mem_append,
      List.mem_map] at he
    rcases he with he | ⟨a, ha, rfl⟩
    · exact Or.inl he
    · exact Or.inr ⟨rfl, ha⟩

/-- The release loop of `trimHoldLists` splits the stamped list into the
`takeWhile`/`dropWhile` decomposition at the predicate
"stamped generation < usedGen". -/
theorem trimElemHold2_eq (g : Nat) (l : List ElemHold2ListElem) :
    trimElemHold2 g l =
      (l.takeWhile (fun e => decide (e.generation < g)),
       l.dropWhile (fun e => decide (e.generation < g))) := by
  induction l with
  | nil => rfl
  | cons e rest ih =>
    by_cases h : e.generation < g
    · simp [trimElemHold2, h, List.takeWhile_cons, List.dropWhile_cons, ih]
    · simp [trimElemHold2, h, List.takeWhile_cons, List.dropWhile_cons]

/-- C1: `trimHoldLists(usedGen)` never releases an entry whose stamped
generation is ≥ `usedGen`; on a stamped list ordered oldest-first (the
invariant maintained by monotone generation stamping), an entry stamped
`G < usedGen` is released on that very call; what is released is exactly a
prefix of the list, each released entry having generation < `usedGen`. -/
theorem trimHoldLists_correct (s : DataStoreBase) (usedGen : Nat)
    (hsorted : s.elemHold2List.Pairwise
      (fun a b => a.generation ≤ b.generation)) :
    (∀ e ∈ s.elemHold2List, usedGen ≤ e.generation →
      e ∈ (s.trimHoldLists usedGen).elemHold2List) ∧
    (∀ e ∈ s.elemHold2List, e.generation < usedGen →
      e ∉ (s.trimHoldLists usedGen).elemHold2List ∧
      e ∈ s.releasedByTrim usedGen) ∧
    (∀ e ∈ s.releasedByTrim usedGen, e.generation < usedGen) ∧
    s.releasedByTrim usedGen ++ (s.trimHoldLists usedGen).elemHold2List
      = s.elemHold2List := by
  have htrim : (s.trimHoldLists usedGen).elemHold2List
      = s.elemHold2List.dropWhile (fun e => decide (e.generation < usedGen)) := by
    simp [DataStoreBase.trimHoldLists, trimElemHold2_eq]
  have hrel : s.releasedByTrim usedGen
      = s.elemHold2List.takeWhile (fun e => decide (e.generation < usedGen)) := by
    simp [DataStoreBase.releasedByTrim, trimElemHold2_eq]
  set p : ElemHold2ListElem → Bool := fun e => decide (e.generation < usedGen)
    with hp
  have hsplit : s.elemHold2List.takeWhile p ++ s.elemHold2List.dropWhile p
      = s.elemHold2List := List.takeWhile_append_dropWhile p s.elemHold2List
  have hdrop_mem : ∀ e ∈ s.elemHold2List.dropWhile p, usedGen ≤ e.generation := by
    intro e he
    cases hd : s.elemHold2List.dropWhile p with
    | nil => rw [hd] at he; cases he
    | cons h0 tl =>
      have hnot : p h0 = false := by
        have := List.head?_dropWhile_not p s.elemHold2List
        rw [hd] at this
        exact this
      have hh0 : usedGen ≤ h0.generation := by
        simp [hp] at hnot; exact hnot
      rw [hd] at he
      rcases List.mem_cons.mp he with rfl | htl
      · exact hh0
      · have hpw : (s.elemHold2List.dropWhile p).Pairwise
            (fun a b => a.generation ≤ b.generation) :=
          List.Pairwise.sublist (List.dropWhile_sublist p) hsorted
        rw [hd] at hpw
        have := (List.pairwise_cons.mp hpw).1 e htl
        omega
  refine ⟨?_, ?_, ?_, ?_⟩
  · intro e he hge
    rw [htrim]
    have : e ∈ s.elemHold2List.takeWhile p ∨ e ∈ s.elemHold2List.dropWhile p := by
      rw [← List.mem_append, hsplit]; exact he
    rcases this with h | h
    · have := List.mem_takeWhile_imp h
      simp [hp] at this
      omega
    · exact h
  · intro e he hlt
    have hnotdrop : e ∉ s.elemHold2List.dropWhile p := by
      intro hcontra
      have := hdrop_mem e hcontra
      omega
    constructor
    · rw [htrim]; exact hnotdrop
    · rw [hrel]
      have : e ∈ s.elemHold2List.takeWhile p ∨ e ∈ s.elemHold2List.dropWhile p := by
        rw [← List.mem_append, hsplit]; exact he
      rcases this with h | h
      · exact h
      · exact absurd h hnotdrop
  · intro e he
    rw [hrel] at he
    have := List.mem_takeWhile_imp he
    simp [hp] at this
    exact this
  · rw [htrim, hrel]; exact hsplit

/-! ## MemStats algebra -/

theorem U64_pos : 0 < U64 := by decide

theorem U32_pos : 0 < U32 := by decide

/-- C10: a default-constructed `MemStats` has all eleven counters zero,
`operator+=` is componentwise (machine) addition, the default value is a
left and right identity for it on representable values, and the operation
is commutative and associative. -/
theorem memStats_algebra (a b c s : MemStats) (hs : s.WF) :
    (MemStats.init.allocElems = 0 ∧ MemStats.init.usedElems = 0 ∧
     MemStats.init.deadElems = 0 ∧ MemStats.init.holdElems = 0 ∧
     MemStats.init.allocBytes = 0 ∧ MemStats.init.usedBytes = 0 ∧
     MemStats.init.deadBytes = 0 ∧ MemStats.init.holdBytes = 0 ∧
     MemStats.init.freeBuffers = 0 ∧ MemStats.init.activeBuffers = 0 ∧
     MemStats.init.holdBuffers = 0) ∧
    (MemStats.add a b).allocElems = (a.allocElems + b.allocElems) % U64 ∧
    (MemStats.add a b).freeBuffers = (a.freeBuffers + b.freeBuffers) % U32 ∧
    MemStats.add MemStats.init s = s ∧
    MemStats.add s MemStats.init = s ∧
    MemStats.add a b = MemStats.add b a ∧
    MemStats.add (MemStats.add a b) c = MemStats.add a (MemStats.add b c) := by
  obtain ⟨h1, h2, h3, h4, h5, h6, h7, h8, h9, h10, h11⟩ := hs
  refine ⟨⟨rfl, rfl, rfl, rfl, rfl, rfl, rfl, rfl, rfl, rfl, rfl⟩,
    rfl, rfl, ?_, ?_, ?_, ?_⟩
  · simp only [MemStats.add, MemStats.init, Nat.zero_add]
    cases s
    simp only [MemStats.mk.injEq]
    exact ⟨Nat.mod_eq_of_lt h1, Nat.mod_eq_of_lt h2, Nat.mod_eq_of_lt h3,
      Nat.mod_eq_of_lt h4, Nat.mod_eq_of_lt h5, Nat.mod_eq_of_lt h6,
      Nat.mod_eq_of_lt h7, Nat.mod_eq_of_lt h8, Nat.mod_eq_of_lt h9,
      Nat.mod_eq_of_lt h10, Nat.mod_eq_of_lt h11⟩
  · simp only [MemStats.add, MemStats.init, Nat.add_zero]
    cases s
    simp only [MemStats.mk.injEq]
    exact ⟨Nat.mod_eq_of_lt h1, Nat.mod_eq_of_lt h2, Nat.mod_eq_of_lt h3,
      Nat.mod_eq_of_lt h4, Nat.mod_eq_of_lt h5, Nat.mod_eq_of_lt h6,
      Nat.mod_eq_of_lt h7, Nat.mod_eq_of_lt h8, Nat.mod_eq_of_lt h9,
      Nat.mod_eq_of_lt h10, Nat.mod_eq_of_lt h11⟩
  · simp only [MemStats.add, MemStats.mk.injEq]
    refine ⟨?_, ?_, ?_, ?_, ?_, ?_, ?_, ?_, ?_, ?_, ?_⟩ <;>
      rw [Nat.add_comm]
  · simp only [MemStats.add, MemStats.mk.injEq]
    refine ⟨?_, ?_, ?_, ?_, ?_, ?_, ?_, ?_, ?_, ?_, ?_⟩ <;>
      · rw [Nat.mod_add_mod, Nat.add_mod_mod, Nat.add_assoc]

/-! ## Memory statistics: aggregate correctness -/

/-- Accumulating a list of `MemStats` with `operator+=` computes, in any
single machine-width field, the wrapped sum of that field. -/
theorem foldl_add_field (f : MemStats → Nat) (m : Nat) (hm : 0 < m)
    (H : ∀ a b, f (MemStats.add a b) = (f a + f b) % m) :
    ∀ (l : List MemStats) (acc : MemStats), f acc < m →
      f (l.foldl MemStats.add acc) = (f acc + (l.map f).sum) % m := by
  intro l
  induction l with
  | nil =>
    intro acc hacc
    simp [Nat.mod_eq_of_lt hacc]
  | cons x xs ih =>
    intro acc hacc
    simp only [List.foldl_cons, List.map_cons, List.sum_cons]
    rw [ih (MemStats.add acc x) (by rw [H]; exact Nat.mod_lt _ hm), H,
      Nat.mod_add_mod, ← Nat.add_assoc]

theorem sum_indicator_eq_countP {α : Type} (p : α → Bool) (l : List α) :
    (l.map fun a => if p a then 1 else 0).sum = l.countP p := by
  induction l with
  | nil => rfl
  | cons x xs ih =>
    simp only [List.map_cons, List.sum_cons, List.countP_cons, ih]
    cases p x
    · simp
    · simp [Nat.add_comm]

/-- C7: `getMemStats()` leaves the arena unchanged (the call-level view
returns the input state), and the snapshot it returns aggregates, slot by
slot, the element, byte and buffer-state counts of the whole pool. -/
theorem getMemStats_correct (s : DataStoreBase) :
    s.getMemStatsCall.2 = s ∧
    s.getMemStatsCall.1 = s.getMemStats ∧
    s.getMemStats.usedElems = (s.states.map fun bs =>
      if bs.state = BufferLifecycle.Free then 0 else bs.usedElems).sum % U64 ∧
    s.getMemStats.allocElems = (s.states.map fun bs =>
      if bs.state = BufferLifecycle.Free then 0 else bs.capacity).sum % U64 ∧
    s.getMemStats.deadElems = (s.states.map fun bs =>
      if bs.state = BufferLifecycle.Free then 0 else bs.deadElems).sum % U64 ∧
    s.getMemStats.holdElems = (s.states.map fun bs =>
      if bs.state = BufferLifecycle.Held then bs.usedElems - bs.deadElems
      else 0).sum % U64 ∧
    s.getMemStats.usedBytes = (s.states.map fun bs =>
      if bs.state = BufferLifecycle.Free then 0
      else bs.usedElems * bs.elemSize).sum % U64 ∧
    s.getMemStats.allocBytes = (s.states.map fun bs =>
      if bs.state = BufferLifecycle.Free then 0
      else bs.capacity * bs.elemSize).sum % U64 ∧
    s.getMemStats.deadBytes = (s.states.map fun bs =>
      if bs.state = BufferLifecycle.Free then 0
      else bs.deadElems * bs.elemSize).sum % U64 ∧
    s.getMemStats.holdBytes = (s.states.map fun bs =>
      if bs.state = BufferLifecycle.Held then
        (bs.usedElems - bs.deadElems) * bs.elemSize
      else 0).sum % U64 ∧
    s.getMemStats.freeBuffers =
      (s.states.countP fun bs =>
        decide (bs.state = BufferLifecycle.Free)) % U32 ∧
    s.getMemStats.activeBuffers =
      (s.states.countP fun bs =>
        decide (bs.state = BufferLifecycle.Active)) % U32 ∧
    s.getMemStats.holdBuffers =
      (s.states.countP fun bs =>
        decide (bs.state = BufferLifecycle.Held)) % U32 := by
  have key : ∀ (f : MemStats → Nat) (m : Nat), 0 < m →
      (∀ a b, f (MemStats.add a b) = (f a + f b) % m) → f MemStats.init = 0 →
      f s.getMemStats = ((s.states.map fun bs => f (perBufferStats bs)).sum) % m := by
    intro f m hm H hinit
    unfold DataStoreBase.getMemStats
    rw [foldl_add_field f m hm H _ MemStats.init (by rw [hinit]; exact hm),
      hinit, Nat.zero_add, List.map_map]
    rfl
  refine ⟨rfl, rfl, ?_, ?_, ?_, ?_, ?_, ?_, ?_, ?_, ?_, ?_, ?_⟩
  · rw [key (fun ms => ms.usedElems) U64 U64_pos (fun a b => rfl) rfl]
    congr 1
    refine congrArg _ (List.map_congr_left ?_)
    intro bs _
    cases h : bs.state <;> simp [perBufferStats, MemStats.init, h]
  · rw [key (fun ms => ms.allocElems) U64 U64_pos (fun a b => rfl) rfl]
    congr 1
    refine congrArg _ (List.map_congr_left ?_)
    intro bs _
    cases h : bs.state <;> simp [perBufferStats, MemStats.init, h]
  · rw [key (fun ms => ms.deadElems) U64 U64_pos (fun a b => rfl) rfl]
    congr 1
    refine congrArg _ (List.map_congr_left ?_)
    intro bs _
    cases h : bs.state <;> simp [perBufferStats, MemStats.init, h]
  · rw [key (fun ms => ms.holdElems) U64 U64_pos (fun a b => rfl) rfl]
    congr 1
    refine congrArg _ (List.map_congr_left ?_)
    intro bs _
    cases h : bs.state <;> simp [perBufferStats, MemStats.init, h]
  · rw [key (fun ms => ms.usedBytes) U64 U64_pos (fun a b => rfl) rfl]
    congr 1
    refine congrArg _ (List.map_congr_left ?_)
    intro bs _
    cases h : bs.state <;> simp [perBufferStats, MemStats.init, h]
  · rw [key (fun ms => ms.allocBytes) U64 U64_pos (fun a b => rfl) rfl]
    congr 1
    refine congrArg _ (List.map_congr_left ?_)
    intro bs _
    cases h : bs.state <;> simp [perBufferStats, MemStats.init, h]
  · rw [key (fun ms => ms.deadBytes) U64 U64_pos (fun a b => rfl) rfl]
    congr 1
    refine congrArg _ (List.map_congr_left ?_)
    intro bs _
    cases h : bs.state <;> simp [perBufferStats, MemStats.init, h]
  · rw [key (fun ms => ms.holdBytes) U64 U64_pos (fun a b => rfl) rfl]
    congr 1
    refine congrArg _ (List.map_congr_left ?_)
    intro bs _
    cases h : bs.state <;> simp [perBufferStats, MemStats.init, h]
  · rw [key (fun ms => ms.freeBuffers) U32 U32_pos (fun a b => rfl) rfl, ← sum_indicator_eq_countP]
    congr 1
    refine congrArg _ (List.map_congr_left ?_)
    intro bs _
    cases h : bs.state <;> simp [perBufferStats, MemStats.init, h]
  · rw [key (fun ms => ms.activeBuffers) U32 U32_pos (fun a b => rfl) rfl, ← sum_indicator_eq_countP]
    congr 1
    refine congrArg _ (List.map_congr_left ?_)
    intro bs _
    cases h : bs.state <;> simp [perBufferStats, MemStats.init, h]
  · rw [key (fun ms => ms.holdBuffers) U32 U32_pos (fun a b => rfl) rfl, ← sum_indicator_eq_countP]
    congr 1
    refine congrArg _ (List.map_congr_left ?_)
    intro bs _
    cases h : bs.state <;> simp [perBufferStats, MemStats.init, h]

/-! ## Buffer switching: frame lemmas and the scan -/

theorem stateAt_lt_of_free (s : DataStoreBase) (b : Nat)
    (h : (s.stateAt b).state = BufferLifecycle.Free) : b < s.states.length := by
  by_contra hge
  have : s.stateAt b = dfltBuffer :=
    List.getD_eq_default _ _ (Nat.le_of_not_lt hge)
  rw [this] at h
  cases h

theorem onActive_frame (s : DataStoreBase) (b t n : Nat) :
    (s.onActive b t n).numBuffers = s.numBuffers ∧
    (s.onActive b t n).activeBufferIds = s.activeBufferIds ∧
    (s.onActive b t n).states.length = s.states.length := by
  refine ⟨rfl, rfl, ?_⟩
  simp [DataStoreBase.onActive]

theorem stateAt_onActive_self (s : DataStoreBase) (b t n : Nat)
    (h : b < s.states.length) :
    (s.onActive b t n).stateAt b =
      { state := BufferLifecycle.Active, typeId := t, capacity := n,
        usedElems := 0, deadElems := 0,
        elemSize := s.typeHandlers.getD t 0 } :=
  getD_set_self _ _ _ _ h

theorem stateAt_onActive_ne (s : DataStoreBase) (b t n j : Nat) (h : b ≠ j) :
    (s.onActive b t n).stateAt j = s.stateAt j :=
  getD_set_ne _ _ _ _ _ h

theorem fallbackGrow_frame (s : DataStoreBase) (b n : Nat) :
    (s.fallbackGrow b n).numBuffers = s.numBuffers ∧
    (s.fallbackGrow b n).activeBufferIds = s.activeBufferIds ∧
    (s.fallbackGrow b n).states.length = s.states.length := by
  refine ⟨rfl, rfl, ?_⟩
  simp [DataStoreBase.fallbackGrow]

theorem stateAt_fallbackGrow_self (s : DataStoreBase) (b n : Nat)
    (h : b < s.states.length) :
    (s.fallbackGrow b n).stateAt b =
      { s.stateAt b with capacity := (s.stateAt b).usedElems + n } :=
  getD_set_self _ _ _ _ h

theorem stateAt_fallbackGrow_ne (s : DataStoreBase) (b n j : Nat)
    (h : b ≠ j) : (s.fallbackGrow b n).stateAt j = s.stateAt j :=
  getD_set_ne _ _ _ _ _ h

theorem stateAt_fallbackGrow_state (s : DataStoreBase) (b n j : Nat) :
    ((s.fallbackGrow b n).stateAt j).state = (s.stateAt j).state ∧
    ((s.fallbackGrow b n).stateAt j).typeId = (s.stateAt j).typeId := by
  by_cases hbj : b = j
  · subst hbj
    by_cases hb : b < s.states.length
    · rw [stateAt_fallbackGrow_self s b n hb]; exact ⟨rfl, rfl⟩
    · have heq : (s.fallbackGrow b n).stateAt b = s.stateAt b :=
        getD_set_oob _ _ _ _ hb
      rw [heq]; exact ⟨rfl, rfl⟩
  · rw [stateAt_fallbackGrow_ne s b n j hbj]; exact ⟨rfl, rfl⟩

theorem switchActiveBuffer_eq_found (s : DataStoreBase) (t n b : Nat)
    (hfind : s.findFreeBuffer (s.getActiveBufferId t) = some b) :
    s.switchActiveBuffer t n =
      { (s.setHeld (s.getActiveBufferId t)).onActive b t n with
          activeBufferIds :=
            ((s.setHeld (s.getActiveBufferId t)).onActive b t n).activeBufferIds.set
              t b } := by
  simp only [DataStoreBase.switchActiveBuffer, hfind]

theorem switchActiveBuffer_eq_none (s : DataStoreBase) (t n : Nat)
    (hfind : s.findFreeBuffer (s.getActiveBufferId t) = none) :
    s.switchActiveBuffer t n = s.fallbackGrow (s.getActiveBufferId t) n := by
  simp only [DataStoreBase.switchActiveBuffer, hfind]

/-- Characterisation of the round-robin scan: a successful scan of at most
`fuel` steps returns a Free, in-range slot that is the first Free slot along
the `nextBufferId` orbit of the start id. -/
theorem findFreeBufferAux_some (s : DataStoreBase) :
    ∀ fuel st b, findFreeBufferAux s fuel st = some b →
      (s.stateAt b).state = BufferLifecycle.Free ∧ b < s.states.length ∧
      ∃ k, 1 ≤ k ∧ k ≤ fuel ∧ b = (s.nextBufferId)^[k] st ∧
        ∀ j, 1 ≤ j → j < k →
          (s.stateAt ((s.nextBufferId)^[j] st)).state ≠ BufferLifecycle.Free := by
  intro fuel
  induction fuel with
  | zero => intro st b h; cases h
  | succ fuel ih =>
    intro st b h
    by_cases hfree :
        (s.stateAt (s.nextBufferId st)).state = BufferLifecycle.Free
    · have hb : b = s.nextBufferId st := by
        unfold findFreeBufferAux at h
        rw [if_pos hfree] at h
        exact (Option.some.inj h).symm
      subst hb
      refine ⟨hfree, stateAt_lt_of_free s _ hfree,
        1, Nat.le_refl 1, by omega, ?_, ?_⟩
      · rw [Function.iterate_one]
      · intro j h1 hj; omega
    · have h' : findFreeBufferAux s fuel (s.nextBufferId st) = some b := by
        unfold findFreeBufferAux at h
        rw [if_neg hfree] at h
        exact h
      obtain ⟨hf, hlt, k, hk1, hkf, hbk, hskip⟩ := ih (s.nextBufferId st) b h'
      refine ⟨hf, hlt, k + 1, by omega, by omega, ?_, ?_⟩
      · rw [Function.iterate_succ_apply]; exact hbk
      · intro j h1 hj
        rcases Nat.lt_or_ge 1 j with hj2 | hj1
        · have hstep := hskip (j - 1) (by omega) (by omega)
          have hjeq : j = (j - 1) + 1 := by omega
          rw [hjeq, Function.iterate_succ_apply]
          exact hstep
        · have : j = 1 := by omega
          subst this
          rw [Function.iterate_one]
          exact hfree

/-- C3: `ensureBufferCapacity(typeId, n)`: when the active buffer already
has at least `n` free elements the call leaves the arena completely
unchanged (the hot path is exactly the one remaining-capacity comparison of
the header); in every case the active buffer for `typeId` afterwards has at
least `n` free elements. -/
theorem ensureBufferCapacity_correct (s : DataStoreBase) (t n : Nat)
    (hInv : s.Inv) (ht : t < s.activeBufferIds.length) :
    (n ≤ (s.stateAt (s.getActiveBufferId t)).remaining →
      s.ensureBufferCapacity t n = s) ∧
    n ≤ ((s.ensureBufferCapacity t n).stateAt
          ((s.ensureBufferCapacity t n).getActiveBufferId t)).remaining := by
  obtain ⟨hlen, hmap⟩ := hInv
  obtain ⟨hcurlt, hcuract, hcurty⟩ := hmap t ht
  constructor
  · intro hle
    unfold DataStoreBase.ensureBufferCapacity
    rw [if_neg (by omega)]
  · unfold DataStoreBase.ensureBufferCapacity
    by_cases hg : (s.stateAt (s.getActiveBufferId t)).remaining < n
    · rw [if_pos hg]
      cases hfind : s.findFreeBuffer (s.getActiveBufferId t) with
      | none =>
        rw [switchActiveBuffer_eq_none s t n hfind]
        have hids : (s.fallbackGrow (s.getActiveBufferId t) n).getActiveBufferId t
            = s.getActiveBufferId t := rfl
        rw [hids, stateAt_fallbackGrow_self s _ n (by omega)]
        simp [BufferState.remaining]
      | some b =>
        rw [switchActiveBuffer_eq_found s t n b hfind]
        obtain ⟨hfree, hblt, -⟩ :=
          findFreeBufferAux_some s s.numBuffers (s.getActiveBufferId t) b hfind
        have hids :
            ({ (s.setHeld (s.getActiveBufferId t)).onActive b t n with
                activeBufferIds :=
                  ((s.setHeld (s.getActiveBufferId t)).onActive b t n).activeBufferIds.set
                    t b } : DataStoreBase).getActiveBufferId t = b := by
          show (((s.setHeld (s.getActiveBufferId t)).onActive b t n).activeBufferIds.set
              t b).getD t 0 = b
          exact getD_set_self _ _ _ _ (by
            show t < s.activeBufferIds.length
            exact ht)
        rw [hids]
        have hbne : s.getActiveBufferId t ≠ b := by
          intro hcontra
          rw [hcontra] at hcuract
          rw [hcuract] at hfree
          cases hfree
        have hstb :
            ({ (s.setHeld (s.getActiveBufferId t)).onActive b t n with
                activeBufferIds :=
                  ((s.setHeld (s.getActiveBufferId t)).onActive b t n).activeBufferIds.set
                    t b } : DataStoreBase).stateAt b
            = ((s.setHeld (s.getActiveBufferId t)).onActive b t n).stateAt b := rfl
        rw [hstb, stateAt_onActive_self _ b t n (by
          have := (setHeld_frame s (s.getActiveBufferId t)).2.2.1
          omega)]
        simp [BufferState.remaining]
    · rw [if_neg hg]
      omega

/-- C6: the successor function on buffer ids is `b+1`, wrapping to `0`
exactly when `b+1` reaches `numBuffers` (equivalently, `(b+1) mod
numBuffers` on in-range ids); a successful `switchActiveBuffer(typeId, n)`
scan starts at the last-used buffer id, visits ids along that successor
orbit, skips every slot that is Active or Held, activates the first Free
slot it finds, and records that slot as the type's active buffer. -/
theorem switchActiveBuffer_scan (s : DataStoreBase) (t n b : Nat)
    (ht : t < s.activeBufferIds.length)
    (hfind : s.findFreeBuffer (s.getActiveBufferId t) = some b) :
    (∀ i, s.nextBufferId i = if i + 1 = s.numBuffers then 0 else i + 1) ∧
    (∀ i, i < s.numBuffers → s.nextBufferId i = (i + 1) % s.numBuffers) ∧
    (s.stateAt b).state = BufferLifecycle.Free ∧
    (∃ k, 1 ≤ k ∧ k ≤ s.numBuffers ∧
      b = (s.nextBufferId)^[k] (s.getActiveBufferId t) ∧
      ∀ j, 1 ≤ j → j < k →
        (s.stateAt ((s.nextBufferId)^[j] (s.getActiveBufferId t))).state
            = BufferLifecycle.Active ∨
        (s.stateAt ((s.nextBufferId)^[j] (s.getActiveBufferId t))).state
            = BufferLifecycle.Held) ∧
    (s.switchActiveBuffer t n).getActiveBufferId t = b := by
  obtain ⟨hfree, hblt, k, hk1, hkf, hbk, hskip⟩ :=
    findFreeBufferAux_some s s.numBuffers (s.getActiveBufferId t) b hfind
  refine ⟨fun i => rfl, ?_, hfree, ⟨k, hk1, hkf, hbk, ?_⟩, ?_⟩
  · intro i hi
    unfold DataStoreBase.nextBufferId
    by_cases h1 : i + 1 = s.numBuffers
    · rw [if_pos h1, h1, Nat.mod_self]
    · rw [if_neg h1, Nat.mod_eq_of_lt (by omega)]
  · intro j hj1 hjk
    have hne := hskip j hj1 hjk
    cases hst : (s.stateAt ((s.nextBufferId)^[j] (s.getActiveBufferId t))).state
    · exact absurd hst hne
    · exact Or.inl rfl
    · exact Or.inr rfl
  · rw [switchActiveBuffer_eq_found s t n b hfind]
    show (((s.setHeld (s.getActiveBufferId t)).onActive b t n).activeBufferIds.set
        t b).getD t 0 = b
    exact getD_set_self _ _ _ _ (by
      show t < s.activeBufferIds.length
      exact ht)

/-! ## Reader dereference path -/

/-- C9: the reader dereference `getBufferEntry(bufferId, offset)` performs
no validation: the embedding's lookup is well-defined (returns a value)
exactly under the precondition that `bufferId` is an in-range slot, the
slot has a backing allocation, and `offset` lies inside that allocation's
extent; outside the precondition nothing in the code intervenes and the
lookup has no value. -/
theorem getBufferEntry_validity (s : DataStoreBase) (b o : Nat)
    (hlen : s.buffers.length = s.numBuffers) :
    (s.getBufferEntry b o).isSome = true ↔
      b < s.numBuffers ∧ ∃ content, s.buffers[b]? = some (some content) ∧
        o < content.length := by
  unfold DataStoreBase.getBufferEntry
  rw [List.getD_eq_getElem?_getD]
  cases hb : s.buffers[b]? with
  | none =>
    have hge : s.buffers.length ≤ b := List.getElem?_eq_none_iff.mp hb
    constructor
    · intro h
      simp at h
    · rintro ⟨hblt, -⟩
      omega
  | some slot =>
    have hblt : b < s.buffers.length := by
      by_contra hc
      rw [List.getElem?_eq_none_iff.mpr (Nat.le_of_not_lt hc)] at hb
      cases hb
    cases slot with
    | none =>
      constructor
      · intro h
        simp at h
      · rintro ⟨-, content, hc, -⟩
        cases hc
    | some content =>
      simp only [Option.getD_some]
      constructor
      · intro h
        by_cases ho : o < content.length
        · exact ⟨by omega, content, rfl, ho⟩
        · simp [ho] at h
      · rintro ⟨-, content2, hc, ho⟩
        obtain rfl : content = content2 :=
          Option.some.inj (Option.some.inj hc)
        simp [ho]

/-! ## finishCompact as a fold of setHeld -/

theorem lifecycle_ne {x : BufferState} {a b : BufferLifecycle}
    (h1 : x.state = a) (h2 : x.state = b) (hne : a ≠ b) : False :=
  hne (h1.symm.trans h2)

theorem finishCompact_cons (s : DataStoreBase) (b : Nat) (rest : List Nat) :
    s.finishCompact (b :: rest) = (s.setHeld b).finishCompact rest := rfl

theorem finishCompact_frame (toHold : List Nat) :
    ∀ s : DataStoreBase,
      (s.finishCompact toHold).numBuffers = s.numBuffers ∧
      (s.finishCompact toHold).activeBufferIds = s.activeBufferIds ∧
      (s.finishCompact toHold).states.length = s.states.length := by
  induction toHold with
  | nil => intro s; exact ⟨rfl, rfl, rfl⟩
  | cons b rest ih =>
    intro s
    have h1 := setHeld_frame s b
    have h2 := ih (s.setHeld b)
    rw [finishCompact_cons]
    refine ⟨?_, ?_, ?_⟩
    · rw [h2.1, h1.1]
    · rw [h2.2.1, h1.2.1]
    · rw [h2.2.2, h1.2.2.1]

theorem stateAt_finishCompact_not_mem (toHold : List Nat) :
    ∀ (s : DataStoreBase) (j : Nat), j ∉ toHold →
      (s.finishCompact toHold).stateAt j = s.stateAt j := by
  induction toHold with
  | nil => intro s j _; rfl
  | cons b rest ih =>
    intro s j hj
    have hjb : b ≠ j := fun h => hj (h ▸ List.mem_cons_self b rest)
    have hjr : j ∉ rest := fun h => hj (List.mem_cons_of_mem b h)
    rw [finishCompact_cons, ih (s.setHeld b) j hjr, stateAt_setHeld_ne s b j hjb]


theorem stateAt_setHeld_or2 (s : DataStoreBase) (b j : Nat) :
    (s.setHeld b).stateAt j = s.stateAt j ∨
    (s.setHeld b).stateAt j = heldify (s.stateAt j) :=
  stateAt_setHeld_or s b j

theorem heldify_heldify (x : BufferState) : heldify (heldify x) = heldify x := rfl

theorem stateAt_finishCompact_or (toHold : List Nat) :
    ∀ (s : DataStoreBase) (j : Nat),
      (s.finishCompact toHold).stateAt j = s.stateAt j ∨
      (s.finishCompact toHold).stateAt j = heldify (s.stateAt j) := by
  induction toHold with
  | nil => intro s j; exact Or.inl rfl
  | cons b rest ih =>
    intro s j
    have h1 := stateAt_setHeld_or2 s b j
    have h2 := ih (s.setHeld b) j
    rw [finishCompact_cons]
    rcases h2 with h2 | h2 <;> rcases h1 with h1 | h1
    · exact Or.inl (h2.trans h1)
    · exact Or.inr (h2.trans h1)
    · exact Or.inr (by rw [h2, h1])
    · exact Or.inr (by rw [h2, h1, heldify_heldify])

/-! ## Invariant preservation lemmas -/

theorem inv_unique (s : DataStoreBase) (hInv : s.Inv) :
    ∀ t1 t2, t1 < s.activeBufferIds.length → t2 < s.activeBufferIds.length →
      t1 ≠ t2 → s.getActiveBufferId t1 ≠ s.getActiveBufferId t2 := by
  obtain ⟨-, hmap⟩ := hInv
  intro t1 t2 h1 h2 hne heq
  have ha := (hmap t1 h1).2.2
  have hb := (hmap t2 h2).2.2
  rw [heq] at ha
  exact hne (ha.symm.trans hb)

theorem inv_setHeld (s : DataStoreBase) (b : Nat) (hInv : s.Inv)
    (hunmapped : s.unmapped b) : (s.setHeld b).Inv := by
  obtain ⟨hlen, hmap⟩ := hInv
  have hf := setHeld_frame s b
  constructor
  · rw [hf.2.2.1, hf.1]; exact hlen
  · intro t ht
    rw [hf.2.1] at ht
    have hids : (s.setHeld b).getActiveBufferId t = s.getActiveBufferId t := by
      show (s.setHeld b).activeBufferIds.getD t 0 = _
      rw [hf.2.1]
      rfl
    obtain ⟨h1, h2, h3⟩ := hmap t ht
    have hne : b ≠ s.getActiveBufferId t := fun h => hunmapped t ht (h ▸ rfl)
    rw [hids, hf.1, stateAt_setHeld_ne s b _ hne]
    exact ⟨h1, h2, h3⟩

theorem inv_doneHoldBuffer (s : DataStoreBase) (b : Nat) (hInv : s.Inv)
    (hheld : (s.stateAt b).state = BufferLifecycle.Held) :
    (s.doneHoldBuffer b).Inv := by
  obtain ⟨hlen, hmap⟩ := hInv
  have hf := doneHoldBuffer_frame s b
  constructor
  · rw [hf.2.2, hf.1]; exact hlen
  · intro t ht
    rw [hf.2.1] at ht
    have hids : (s.doneHoldBuffer b).getActiveBufferId t = s.getActiveBufferId t := by
      show (s.doneHoldBuffer b).activeBufferIds.getD t 0 = _
      rw [hf.2.1]
      rfl
    obtain ⟨h1, h2, h3⟩ := hmap t ht
    have hne : b ≠ s.getActiveBufferId t := by
      intro h
      rw [h] at hheld
      exact lifecycle_ne h2 hheld (by decide)
    rw [hids, hf.1, stateAt_doneHoldBuffer_ne s b _ hne]
    exact ⟨h1, h2, h3⟩

theorem inv_incDead (s : DataStoreBase) (b d : Nat) (hInv : s.Inv) :
    (s.incDead b d).Inv := by
  obtain ⟨hlen, hmap⟩ := hInv
  have hf := incDead_frame s b d
  constructor
  · rw [hf.2.2, hf.1]; exact hlen
  · intro t ht
    rw [hf.2.1] at ht
    have hids : (s.incDead b d).getActiveBufferId t = s.getActiveBufferId t := by
      show (s.incDead b d).activeBufferIds.getD t 0 = _
      rw [hf.2.1]
      rfl
    obtain ⟨h1, h2, h3⟩ := hmap t ht
    have hst := stateAt_incDead_state s b d (s.getActiveBufferId t)
    rw [hids, hf.1, hst.1, hst.2]
    exact ⟨h1, h2, h3⟩

theorem inv_finishCompact (s : DataStoreBase) (toHold : List Nat)
    (hInv : s.Inv) (hunmapped : ∀ b ∈ toHold, s.unmapped b) :
    (s.finishCompact toHold).Inv := by
  obtain ⟨hlen, hmap⟩ := hInv
  have hf := finishCompact_frame toHold s
  constructor
  · rw [hf.2.2, hf.1]; exact hlen
  · intro t ht
    rw [hf.2.1] at ht
    have hids : (s.finishCompact toHold).getActiveBufferId t
        = s.getActiveBufferId t := by
      show (s.finishCompact toHold).activeBufferIds.getD t 0 = _
      rw [hf.2.1]
      rfl
    obtain ⟨h1, h2, h3⟩ := hmap t ht
    have hnm : s.getActiveBufferId t ∉ toHold := by
      intro hmem
      exact hunmapped _ hmem t ht rfl
    rw [hids, hf.1, stateAt_finishCompact_not_mem toHold s _ hnm]
    exact ⟨h1, h2, h3⟩

theorem inv_switchActiveBuffer (s : DataStoreBase) (t n : Nat)
    (hInv : s.Inv) (ht : t < s.activeBufferIds.length) :
    (s.switchActiveBuffer t n).Inv := by
  obtain ⟨hlen, hmap⟩ := hInv
  obtain ⟨hcurlt, hcuract, hcurty⟩ := hmap t ht
  cases hfind : s.findFreeBuffer (s.getActiveBufferId t) with
  | none =>
    rw [switchActiveBuffer_eq_none s t n hfind]
    have hf := fallbackGrow_frame s (s.getActiveBufferId t) n
    constructor
    · rw [hf.2.2, hf.1]; exact hlen
    · intro t' ht'
      rw [hf.2.1] at ht'
      have hids : (s.fallbackGrow (s.getActiveBufferId t) n).getActiveBufferId t'
          = s.getActiveBufferId t' := by
        show (s.fallbackGrow (s.getActiveBufferId t) n).activeBufferIds.getD t' 0 = _
        rw [hf.2.1]
        rfl
      obtain ⟨h1, h2, h3⟩ := hmap t' ht'
      rw [hids, hf.1]
      have hst := stateAt_fallbackGrow_state s (s.getActiveBufferId t) n
        (s.getActiveBufferId t')
      rw [hst.1, hst.2]
      exact ⟨h1, h2, h3⟩
  | some b =>
    rw [switchActiveBuffer_eq_found s t n b hfind]
    obtain ⟨hfree, hblt, -⟩ :=
      findFreeBufferAux_some s s.numBuffers (s.getActiveBufferId t) b hfind
    have hbne : s.getActiveBufferId t ≠ b := by
      intro hcontra
      rw [hcontra] at hcuract
      exact lifecycle_ne hcuract hfree (by decide)
    have hsh := setHeld_frame s (s.getActiveBufferId t)
    have hoa := onActive_frame (s.setHeld (s.getActiveBufferId t)) b t n
    constructor
    · show ((s.setHeld (s.getActiveBufferId t)).onActive b t n).states.length
        = ((s.setHeld (s.getActiveBufferId t)).onActive b t n).numBuffers
      rw [hoa.2.2, hsh.2.2.1, hoa.1, hsh.1]
      exact hlen
    · intro t' ht'
      have hlen2 :
          (({ (s.setHeld (s.getActiveBufferId t)).onActive b t n with
              activeBufferIds :=
                ((s.setHeld (s.getActiveBufferId t)).onActive b t n).activeBufferIds.set
                  t b } : DataStoreBase)).activeBufferIds.length
          = s.activeBufferIds.length := by
        show (((s.setHeld (s.getActiveBufferId t)).onActive b t n).activeBufferIds.set
            t b).length = _
        rw [List.length_set, hoa.2.1, hsh.2.1]
      rw [hlen2] at ht'
      have hstates :
          (({ (s.setHeld (s.getActiveBufferId t)).onActive b t n with
              activeBufferIds :=
                ((s.setHeld (s.getActiveBufferId t)).onActive b t n).activeBufferIds.set
                  t b } : DataStoreBase)).stateAt
          = ((s.setHeld (s.getActiveBufferId t)).onActive b t n).stateAt := rfl
      have hnum :
          (({ (s.setHeld (s.getActiveBufferId t)).onActive b t n with
              activeBufferIds :=
                ((s.setHeld (s.getActiveBufferId t)).onActive b t n).activeBufferIds.set
                  t b } : DataStoreBase)).numBuffers = s.numBuffers := by
        show ((s.setHeld (s.getActiveBufferId t)).onActive b t n).numBuffers = _
        rw [hoa.1, hsh.1]
      by_cases hct : t' = t
      · subst hct
        have hids :
            (({ (s.setHeld (s.getActiveBufferId t')).onActive b t' n with
                activeBufferIds :=
                  ((s.setHeld (s.getActiveBufferId t')).onActive b t' n).activeBufferIds.set
                    t' b } : DataStoreBase)).getActiveBufferId t' = b := by
          show ((((s.setHeld (s.getActiveBufferId t')).onActive b t' n)).activeBufferIds.set
              t' b).getD t' 0 = b
          refine getD_set_self _ _ _ _ ?_
          rw [hoa.2.1, hsh.2.1]
          exact ht'
        rw [hids, hstates, hnum]
        have hblen : b < (s.setHeld (s.getActiveBufferId t')).states.length := by
          rw [hsh.2.2.1]; exact hblt
        rw [stateAt_onActive_self _ b t' n hblen]
        exact ⟨by omega, rfl, rfl⟩
      · have hids :
            (({ (s.setHeld (s.getActiveBufferId t)).onActive b t n with
                activeBufferIds :=
                  ((s.setHeld (s.getActiveBufferId t)).onActive b t n).activeBufferIds.set
                    t b } : DataStoreBase)).getActiveBufferId t'
            = s.getActiveBufferId t' := by
          show ((((s.setHeld (s.getActiveBufferId t)).onActive b t n)).activeBufferIds.set
              t b).getD t' 0 = _
          rw [getD_set_ne _ _ _ _ _ (fun h => hct h.symm)]
          show ((s.setHeld (s.getActiveBufferId t)).onActive b t n).activeBufferIds.getD t' 0 = _
          rw [hoa.2.1, hsh.2.1]
          rfl
        obtain ⟨h1, h2, h3⟩ := hmap t' ht'
        have hcb : s.getActiveBufferId t' ≠ b := by
          intro hcontra
          rw [hcontra] at h2
          exact lifecycle_ne h2 hfree (by decide)
        have hccur : s.getActiveBufferId t' ≠ s.getActiveBufferId t := by
          intro hcontra
          rw [hcontra] at h3
          exact hct (h3.symm.trans hcurty)
        rw [hids, hstates, hnum]
        rw [stateAt_onActive_ne _ b t n _ (fun h => hcb h.symm),
          stateAt_setHeld_ne s _ _ (fun h => hccur h.symm)]
        exact ⟨h1, h2, h3⟩

/-- A slot that is Held stays Held (untouched) across `switchActiveBuffer`:
the scan only ever activates a Free slot and only the current active slot
moves to Held. -/
theorem stateAt_switchActive_held (s : DataStoreBase) (t i b : Nat)
    (hInv : s.Inv) (ht : t < s.activeBufferIds.length)
    (hheld : (s.stateAt b).state = BufferLifecycle.Held) :
    ((s.switchActiveBuffer t i).stateAt b).state = BufferLifecycle.Held := by
  obtain ⟨hlen, hmap⟩ := hInv
  obtain ⟨hcurlt, hcuract, hcurty⟩ := hmap t ht
  cases hfind : s.findFreeBuffer (s.getActiveBufferId t) with
  | none =>
    rw [switchActiveBuffer_eq_none s t i hfind]
    rw [(stateAt_fallbackGrow_state s (s.getActiveBufferId t) i b).1]
    exact hheld
  | some f =>
    rw [switchActiveBuffer_eq_found s t i f hfind]
    obtain ⟨hfree, hflt, -⟩ :=
      findFreeBufferAux_some s s.numBuffers (s.getActiveBufferId t) f hfind
    have hfb : f ≠ b := by
      intro h
      rw [h] at hfree
      exact (lifecycle_ne hfree hheld (by decide)).elim
    have hcurb : s.getActiveBufferId t ≠ b := by
      intro h
      rw [h] at hcuract
      exact (lifecycle_ne hcuract hheld (by decide)).elim
    have hstates :
        (({ (s.setHeld (s.getActiveBufferId t)).onActive f t i with
            activeBufferIds :=
              ((s.setHeld (s.getActiveBufferId t)).onActive f t i).activeBufferIds.set
                t f } : DataStoreBase)).stateAt
        = ((s.setHeld (s.getActiveBufferId t)).onActive f t i).stateAt := rfl
    rw [hstates, stateAt_onActive_ne _ f t i b hfb,
      stateAt_setHeld_ne s _ b hcurb]
    exact hheld

theorem no_transition {s s' : DataStoreBase}
    (hst : ∀ b, s'.stateAt b = s.stateAt b) (b : Nat)
    (x y : BufferLifecycle) (hxy : x ≠ y)
    (h1 : (s.stateAt b).state = x) (h2 : (s'.stateAt b).state = y) : False := by
  rw [hst b] at h2
  exact lifecycle_ne h1 h2 hxy

/-- C4: every step of the arena preserves the structural invariant; in the
reached state no buffer is the active buffer of two types at once; a buffer
moves Active→Held only through `holdBuffer`, `finishCompact` or a
`switchActiveBuffer` (including the one `ensureBufferCapacity` triggers);
Held→Free happens only through `doneHoldBuffer` of that very buffer; and no
buffer ever moves Held→Active. -/
theorem bufferLifecycle_linear (s s' : DataStoreBase) (op : Op)
    (hInv : s.Inv) (hstep : step s op = some s') :
    s'.Inv ∧
    (∀ t1 t2, t1 < s'.activeBufferIds.length →
      t2 < s'.activeBufferIds.length → t1 ≠ t2 →
      s'.getActiveBufferId t1 ≠ s'.getActiveBufferId t2) ∧
    (∀ b, (s.stateAt b).state = BufferLifecycle.Active →
      (s'.stateAt b).state = BufferLifecycle.Held →
      op = Op.holdBuf b ∨
      (∃ ids, op = Op.finishCompactOp ids ∧ b ∈ ids) ∨
      (∃ ti i, s' = s.switchActiveBuffer ti i)) ∧
    (∀ b, (s.stateAt b).state = BufferLifecycle.Held →
      (s'.stateAt b).state = BufferLifecycle.Free →
      op = Op.doneHoldBuf b) ∧
    (∀ b, ¬((s.stateAt b).state = BufferLifecycle.Held ∧
      (s'.stateAt b).state = BufferLifecycle.Active)) := by
  suffices h : s'.Inv ∧
      (∀ b, (s.stateAt b).state = BufferLifecycle.Active →
        (s'.stateAt b).state = BufferLifecycle.Held →
        op = Op.holdBuf b ∨
        (∃ ids, op = Op.finishCompactOp ids ∧ b ∈ ids) ∨
        (∃ ti i, s' = s.switchActiveBuffer ti i)) ∧
      (∀ b, (s.stateAt b).state = BufferLifecycle.Held →
        (s'.stateAt b).state = BufferLifecycle.Free →
        op = Op.doneHoldBuf b) ∧
      (∀ b, ¬((s.stateAt b).state = BufferLifecycle.Held ∧
        (s'.stateAt b).state = BufferLifecycle.Active)) by
    exact ⟨h.1, inv_unique s' h.1, h.2.1, h.2.2.1, h.2.2.2⟩
  cases op with
  | ensureCap t i =>
    by_cases hcond : t < s.activeBufferIds.length
    · rw [step, if_pos hcond] at hstep
      obtain rfl : s.ensureBufferCapacity t i = s' := Option.some.inj hstep
      unfold DataStoreBase.ensureBufferCapacity
      by_cases hg : (s.stateAt (s.getActiveBufferId t)).remaining < i
      · rw [if_pos hg]
        refine ⟨inv_switchActiveBuffer s t i hInv hcond, ?_, ?_, ?_⟩
        · intro b _ _
          exact Or.inr (Or.inr ⟨t, i, rfl⟩)
        · intro b hheld hfree
          rw [stateAt_switchActive_held s t i b hInv hcond hheld] at hfree
          cases hfree
        · rintro b ⟨hheld, hact⟩
          rw [stateAt_switchActive_held s t i b hInv hcond hheld] at hact
          cases hact
      · rw [if_neg hg]
        have hid : ∀ b, s.stateAt b = s.stateAt b := fun _ => rfl
        refine ⟨hInv, ?_, ?_, ?_⟩
        · intro b h1 h2
          exact (no_transition hid b _ _ (by decide) h1 h2).elim
        · intro b h1 h2
          exact (no_transition hid b _ _ (by decide) h1 h2).elim
        · rintro b ⟨h1, h2⟩
          exact no_transition hid b _ _ (by decide) h1 h2
    · rw [step, if_neg hcond] at hstep
      cases hstep
  | switchActive t i =>
    by_cases hcond : t < s.activeBufferIds.length
    · rw [step, if_pos hcond] at hstep
      obtain rfl : s.switchActiveBuffer t i = s' := Option.some.inj hstep
      refine ⟨inv_switchActiveBuffer s t i hInv hcond, ?_, ?_, ?_⟩
      · intro b _ _
        exact Or.inr (Or.inr ⟨t, i, rfl⟩)
      · intro b hheld hfree
        rw [stateAt_switchActive_held s t i b hInv hcond hheld] at hfree
        cases hfree
      · rintro b ⟨hheld, hact⟩
        rw [stateAt_switchActive_held s t i b hInv hcond hheld] at hact
        cases hact
    · rw [step, if_neg hcond] at hstep
      cases hstep
  | holdBuf b0 =>
    by_cases hcond : b0 < s.numBuffers ∧
        (s.stateAt b0).state = BufferLifecycle.Active ∧ s.unmapped b0
    · rw [step, if_pos hcond] at hstep
      obtain rfl : s.holdBuffer b0 = s' := Option.some.inj hstep
      obtain ⟨hb0, hact0, hunm0⟩ := hcond
      refine ⟨inv_setHeld s b0 hInv hunm0, ?_, ?_, ?_⟩
      · intro b h1 h2
        by_cases hbb : b0 = b
        · exact Or.inl (by rw [hbb])
        · rw [show s.holdBuffer b0 = s.setHeld b0 from rfl,
            stateAt_setHeld_ne s b0 b hbb] at h2
          exact (lifecycle_ne h1 h2 (by decide)).elim
      · intro b h1 h2
        by_cases hbb : b0 = b
        · rw [← hbb] at h1
          exact (lifecycle_ne hact0 h1 (by decide)).elim
        · rw [show s.holdBuffer b0 = s.setHeld b0 from rfl,
            stateAt_setHeld_ne s b0 b hbb] at h2
          exact (lifecycle_ne h1 h2 (by decide)).elim
      · rintro b ⟨h1, h2⟩
        by_cases hbb : b0 = b
        · rw [← hbb] at h1
          exact lifecycle_ne hact0 h1 (by decide)
        · rw [show s.holdBuffer b0 = s.setHeld b0 from rfl,
            stateAt_setHeld_ne s b0 b hbb] at h2
          exact lifecycle_ne h1 h2 (by decide)
    · rw [step, if_neg hcond] at hstep
      cases hstep
  | doneHoldBuf b0 =>
    by_cases hcond : b0 < s.numBuffers ∧
        (s.stateAt b0).state = BufferLifecycle.Held
    · rw [step, if_pos hcond] at hstep
      obtain rfl : s.doneHoldBuffer b0 = s' := Option.some.inj hstep
      obtain ⟨hb0, hheld0⟩ := hcond
      have hb0len : b0 < s.states.length := by
        obtain ⟨hlen, -⟩ := hInv
        omega
      refine ⟨inv_doneHoldBuffer s b0 hInv hheld0, ?_, ?_, ?_⟩
      · intro b h1 h2
        by_cases hbb : b0 = b
        · rw [← hbb] at h1
          exact (lifecycle_ne hheld0 h1 (by decide)).elim
        · rw [stateAt_doneHoldBuffer_ne s b0 b hbb] at h2
          exact (lifecycle_ne h1 h2 (by decide)).elim
      · intro b h1 h2
        by_cases hbb : b0 = b
        · rw [hbb]
        · rw [stateAt_doneHoldBuffer_ne s b0 b hbb] at h2
          exact (lifecycle_ne h1 h2 (by decide)).elim
      · rintro b ⟨h1, h2⟩
        by_cases hbb : b0 = b
        · rw [← hbb, stateAt_doneHoldBuffer_self s b0 hb0len] at h2
          cases h2
        · rw [stateAt_doneHoldBuffer_ne s b0 b hbb] at h2
          exact lifecycle_ne h1 h2 (by decide)
    · rw [step, if_neg hcond] at hstep
      cases hstep
  | finishCompactOp ids =>
    by_cases hcond : ∀ b ∈ ids, b < s.numBuffers ∧
        (s.stateAt b).state = BufferLifecycle.Active ∧ s.unmapped b
    · rw [step, if_pos hcond] at hstep
      obtain rfl : s.finishCompact ids = s' := Option.some.inj hstep
      refine ⟨inv_finishCompact s ids hInv (fun b hb => (hcond b hb).2.2),
        ?_, ?_, ?_⟩
      · intro b h1 h2
        by_cases hmem : b ∈ ids
        · exact Or.inr (Or.inl ⟨ids, rfl, hmem⟩)
        · rw [stateAt_finishCompact_not_mem ids s b hmem] at h2
          exact (lifecycle_ne h1 h2 (by decide)).elim
      · intro b h1 h2
        rcases stateAt_finishCompact_or ids s b with hor | hor
        · rw [hor] at h2
          exact (lifecycle_ne h1 h2 (by decide)).elim
        · rw [hor] at h2
          cases h2
      · rintro b ⟨h1, h2⟩
        rcases stateAt_finishCompact_or ids s b with hor | hor
        · rw [hor] at h2
          exact lifecycle_ne h1 h2 (by decide)
        · rw [hor] at h2
          cases h2
    · rw [step, if_neg hcond] at hstep
      cases hstep
  | incDeadOp b0 d =>
    by_cases hcond : b0 < s.numBuffers
    · rw [step, if_pos hcond] at hstep
      obtain rfl : s.incDead b0 d = s' := Option.some.inj hstep
      have hst : ∀ b, ((s.incDead b0 d).stateAt b).state = (s.stateAt b).state :=
        fun b => (stateAt_incDead_state s b0 d b).1
      refine ⟨inv_incDead s b0 d hInv, ?_, ?_, ?_⟩
      · intro b h1 h2
        rw [hst b] at h2
        exact (lifecycle_ne h1 h2 (by decide)).elim
      · intro b h1 h2
        rw [hst b] at h2
        exact (lifecycle_ne h1 h2 (by decide)).elim
      · rintro b ⟨h1, h2⟩
        rw [hst b] at h2
        exact lifecycle_ne h1 h2 (by decide)
    · rw [step, if_neg hcond] at hstep
      cases hstep
  | transferHolds g =>
    rw [step] at hstep
    obtain rfl : s.transferHoldLists g = s' := Option.some.inj hstep
    have hid : ∀ b, (s.transferHoldLists g).stateAt b = s.stateAt b :=
      fun _ => rfl
    refine ⟨hInv, ?_, ?_, ?_⟩
    · intro b h1 h2
      exact (no_transition hid b _ _ (by decide) h1 h2).elim
    · intro b h1 h2
      exact (no_transition hid b _ _ (by decide) h1 h2).elim
    · rintro b ⟨h1, h2⟩
      exact no_transition hid b _ _ (by decide) h1 h2
  | trimHolds g =>
    rw [step] at hstep
    obtain rfl : s.trimHoldLists g = s' := Option.some.inj hstep
    have hid : ∀ b, (s.trimHoldLists g).stateAt b = s.stateAt b :=
      fun _ => rfl
    refine ⟨hInv, ?_, ?_, ?_⟩
    · intro b h1 h2
      exact (no_transition hid b _ _ (by decide) h1 h2).elim
    · intro b h1 h2
      exact (no_transition hid b _ _ (by decide) h1 h2).elim
    · rintro b ⟨h1, h2⟩
      exact no_transition hid b _ _ (by decide) h1 h2

/-! ## The counter invariant and incDead -/

theorem countAt (s : DataStoreBase) (hCnt : s.CountInv) (b : Nat) :
    (s.stateAt b).deadElems ≤ (s.stateAt b).usedElems ∧
    (s.stateAt b).usedElems ≤ (s.stateAt b).capacity := by
  by_cases hb : b < s.states.length
  · exact hCnt b hb
  · have heq : s.stateAt b = dfltBuffer :=
      List.getD_eq_default _ _ (Nat.le_of_not_lt hb)
    rw [heq]
    exact ⟨Nat.le_refl 0, Nat.le_refl 0⟩


/-- C5 counterexample: from a reachable-shape state satisfying both the
structural invariant and `deadElems ≤ usedElems ≤ capacity`, the operation
`incDead(0, 5)` — which the header implements as an unconditional
`_deadElems += dead` with no comparison against `_usedElems` — succeeds and
leaves the buffer with `deadElems = 5 > usedElems = 0`: the counter
invariant is not preserved by every operation as the claim states it. -/
theorem incDead_breaks_countInv :
    c5ex.Inv ∧ c5ex.CountInv ∧
    step c5ex (Op.incDeadOp 0 5) = some (c5ex.incDead 0 5) ∧
    ¬ (c5ex.incDead 0 5).CountInv := by decide

/-- C5 (amended): `deadElems ≤ usedElems ≤ capacity` is preserved by every
operation of the arena provided `incDead` respects its caller contract,
i.e. is invoked only with an amount of newly dead elements that are
actually in use (`deadElems + dead ≤ usedElems` at the target buffer). -/
theorem countInv_preserved (s s' : DataStoreBase) (op : Op)
    (hCnt : s.CountInv) (hstep : step s op = some s')
    (hguard : ∀ b d, op = Op.incDeadOp b d →
      (s.stateAt b).deadElems + d ≤ (s.stateAt b).usedElems) :
    s'.CountInv := by
  cases op with
  | ensureCap t i =>
    by_cases hcond : t < s.activeBufferIds.length
    · rw [step, if_pos hcond] at hstep
      obtain rfl : s.ensureBufferCapacity t i = s' := Option.some.inj hstep
      unfold DataStoreBase.ensureBufferCapacity
      by_cases hg : (s.stateAt (s.getActiveBufferId t)).remaining < i
      · rw [if_pos hg]
        intro b _
        cases hfind : s.findFreeBuffer (s.getActiveBufferId t) with
        | none =>
          rw [switchActiveBuffer_eq_none s t i hfind]
          by_cases hbc : s.getActiveBufferId t = b
          · subst hbc
            by_cases hblen : s.getActiveBufferId t < s.states.length
            · rw [stateAt_fallbackGrow_self s _ i hblen]
              have := countAt s hCnt (s.getActiveBufferId t)
              constructor
              · exact this.1
              · show (s.stateAt (s.getActiveBufferId t)).usedElems ≤
                  (s.stateAt (s.getActiveBufferId t)).usedElems + i
                omega
            · have heq : (s.fallbackGrow (s.getActiveBufferId t) i).stateAt
                  (s.getActiveBufferId t) = s.stateAt (s.getActiveBufferId t) :=
                getD_set_oob _ _ _ _ hblen
              rw [heq]
              exact countAt s hCnt _
          · rw [stateAt_fallbackGrow_ne s _ i b hbc]
            exact countAt s hCnt b
        | some f =>
          rw [switchActiveBuffer_eq_found s t i f hfind]
          obtain ⟨-, hflt, -⟩ :=
            findFreeBufferAux_some s s.numBuffers (s.getActiveBufferId t) f hfind
          have hstates :
              (({ (s.setHeld (s.getActiveBufferId t)).onActive f t i with
                  activeBufferIds :=
                    ((s.setHeld (s.getActiveBufferId t)).onActive f t i).activeBufferIds.set
                      t f } : DataStoreBase)).stateAt
              = ((s.setHeld (s.getActiveBufferId t)).onActive f t i).stateAt := rfl
          rw [hstates]
          by_cases hbf : f = b
          · subst hbf
            have hflen : f < (s.setHeld (s.getActiveBufferId t)).states.length := by
              rw [(setHeld_frame s _).2.2.1]
              exact hflt
            rw [stateAt_onActive_self _ f t i hflen]
            exact ⟨Nat.le_refl 0, Nat.zero_le i⟩
          · rw [stateAt_onActive_ne _ f t i b hbf]
            rcases stateAt_setHeld_or2 s (s.getActiveBufferId t) b with h | h
            · rw [h]; exact countAt s hCnt b
            · rw [h]
              exact countAt s hCnt b
      · rw [if_neg hg]
        exact fun b _ => countAt s hCnt b
    · rw [step, if_neg hcond] at hstep
      cases hstep
  | switchActive t i =>
    by_cases hcond : t < s.activeBufferIds.length
    · rw [step, if_pos hcond] at hstep
      obtain rfl : s.switchActiveBuffer t i = s' := Option.some.inj hstep
      intro b _
      cases hfind : s.findFreeBuffer (s.getActiveBufferId t) with
      | none =>
        rw [switchActiveBuffer_eq_none s t i hfind]
        by_cases hbc : s.getActiveBufferId t = b
        · subst hbc
          by_cases hblen : s.getActiveBufferId t < s.states.length
          · rw [stateAt_fallbackGrow_self s _ i hblen]
            have := countAt s hCnt (s.getActiveBufferId t)
            constructor
            · exact this.1
            · show (s.stateAt (s.getActiveBufferId t)).usedElems ≤
                (s.stateAt (s.getActiveBufferId t)).usedElems + i
              omega
          · have heq : (s.fallbackGrow (s.getActiveBufferId t) i).stateAt
                (s.getActiveBufferId t) = s.stateAt (s.getActiveBufferId t) :=
              getD_set_oob _ _ _ _ hblen
            rw [heq]
            exact countAt s hCnt _
        · rw [stateAt_fallbackGrow_ne s _ i b hbc]
          exact countAt s hCnt b
      | some f =>
        rw [switchActiveBuffer_eq_found s t i f hfind]
        obtain ⟨-, hflt, -⟩ :=
          findFreeBufferAux_some s s.numBuffers (s.getActiveBufferId t) f hfind
        have hstates :
            (({ (s.setHeld (s.getActiveBufferId t)).onActive f t i with
                activeBufferIds :=
                  ((s.setHeld (s.getActiveBufferId t)).onActive f t i).activeBufferIds.set
                    t f } : DataStoreBase)).stateAt
            = ((s.setHeld (s.getActiveBufferId t)).onActive f t i).stateAt := rfl
        rw [hstates]
        by_cases hbf : f = b
        · subst hbf
          have hflen : f < (s.setHeld (s.getActiveBufferId t)).states.length := by
            rw [(setHeld_frame s _).2.2.1]
            exact hflt
          rw [stateAt_onActive_self _ f t i hflen]
          exact ⟨Nat.le_refl 0, Nat.zero_le i⟩
        · rw [stateAt_onActive_ne _ f t i b hbf]
          rcases stateAt_setHeld_or2 s (s.getActiveBufferId t) b with h | h
          · rw [h]; exact countAt s hCnt b
          · rw [h]
            exact countAt s hCnt b
    · rw [step, if_neg hcond] at hstep
      cases hstep
  | holdBuf b0 =>
    by_cases hcond : b0 < s.numBuffers ∧
        (s.stateAt b0).state = BufferLifecycle.Active ∧ s.unmapped b0
    · rw [step, if_pos hcond] at hstep
      obtain rfl : s.holdBuffer b0 = s' := Option.some.inj hstep
      intro b _
      rcases stateAt_setHeld_or2 s b0 b with h | h
      · rw [show s.holdBuffer b0 = s.setHeld b0 from rfl, h]
        exact countAt s hCnt b
      · rw [show s.holdBuffer b0 = s.setHeld b0 from rfl, h]
        exact countAt s hCnt b
    · rw [step, if_neg hcond] at hstep
      cases hstep
  | doneHoldBuf b0 =>
    by_cases hcond : b0 < s.numBuffers ∧
        (s.stateAt b0).state = BufferLifecycle.Held
    · rw [step, if_pos hcond] at hstep
      obtain rfl : s.doneHoldBuffer b0 = s' := Option.some.inj hstep
      intro b _
      by_cases hbb : b0 = b
      · subst hbb
        by_cases hblen : b0 < s.states.length
        · rw [stateAt_doneHoldBuffer_self s b0 hblen]
          exact ⟨Nat.le_refl 0, Nat.le_refl 0⟩
        · have heq : (s.doneHoldBuffer b0).stateAt b0 = s.stateAt b0 :=
            getD_set_oob _ _ _ _ hblen
          rw [heq]
          exact countAt s hCnt b0
      · rw [stateAt_doneHoldBuffer_ne s b0 b hbb]
        exact countAt s hCnt b
    · rw [step, if_neg hcond] at hstep
      cases hstep
  | finishCompactOp ids =>
    by_cases hcond : ∀ b ∈ ids, b < s.numBuffers ∧
        (s.stateAt b).state = BufferLifecycle.Active ∧ s.unmapped b
    · rw [step, if_pos hcond] at hstep
      obtain rfl : s.finishCompact ids = s' := Option.some.inj hstep
      intro b _
      rcases stateAt_finishCompact_or ids s b with h | h
      · rw [h]; exact countAt s hCnt b
      · rw [h]
        exact countAt s hCnt b
    · rw [step, if_neg hcond] at hstep
      cases hstep
  | incDeadOp b0 d =>
    by_cases hcond : b0 < s.numBuffers
    · rw [step, if_pos hcond] at hstep
      obtain rfl : s.incDead b0 d = s' := Option.some.inj hstep
      have hg := hguard b0 d rfl
      intro b _
      by_cases hbb : b0 = b
      · subst hbb
        by_cases hblen : b0 < s.states.length
        · rw [stateAt_incDead_self s b0 d hblen]
          have := countAt s hCnt b0
          constructor
          · show (s.stateAt b0).deadElems + d ≤ (s.stateAt b0).usedElems
            exact hg
          · exact this.2
        · have heq : (s.incDead b0 d).stateAt b0 = s.stateAt b0 :=
            getD_set_oob _ _ _ _ hblen
          rw [heq]
          exact countAt s hCnt b0
      · rw [stateAt_incDead_ne s b0 d b hbb]
        exact countAt s hCnt b
    · rw [step, if_neg hcond] at hstep
      cases hstep
  | transferHolds g =>
    rw [step] at hstep
    obtain rfl : s.transferHoldLists g = s' := Option.some.inj hstep
    exact fun b _ => countAt s hCnt b
  | trimHolds g =>
    rw [step] at hstep
    obtain rfl : s.trimHoldLists g = s' := Option.some.inj hstep
    exact fun b _ => countAt s hCnt b

/-! ## Concrete example states and witnesses -/


theorem trimHoldLists_correct_witness :
    exHold.elemHold2List.Pairwise (fun a b => a.generation ≤ b.generation) ∧
    (∀ e ∈ exHold.elemHold2List, e.generation < 4 →
      e ∉ (exHold.trimHoldLists 4).elemHold2List ∧
      e ∈ exHold.releasedByTrim 4) :=
  ⟨by decide, (trimHoldLists_correct exHold 4 (by decide)).2.1⟩


theorem ensureBufferCapacity_correct_witness :
    exArena.Inv ∧ 0 < exArena.activeBufferIds.length ∧
    (2 ≤ (exArena.stateAt (exArena.getActiveBufferId 0)).remaining →
      exArena.ensureBufferCapacity 0 2 = exArena) :=
  ⟨by decide, by decide,
    (ensureBufferCapacity_correct exArena 0 2 (by decide) (by decide)).1⟩


theorem bufferLifecycle_linear_witness :
    exArenaB.Inv ∧
    step exArenaB (Op.holdBuf 1) = some (exArenaB.holdBuffer 1) ∧
    (exArenaB.holdBuffer 1).Inv :=
  ⟨by decide, by decide,
    (bufferLifecycle_linear exArenaB (exArenaB.holdBuffer 1) (Op.holdBuf 1)
      (by decide) (by decide)).1⟩

theorem countInv_preserved_witness :
    exArena.CountInv ∧
    step exArena (Op.incDeadOp 0 1) = some (exArena.incDead 0 1) ∧
    (exArena.incDead 0 1).CountInv :=
  ⟨by decide, by decide,
    countInv_preserved exArena (exArena.incDead 0 1) (Op.incDeadOp 0 1)
      (by decide) (by decide)
      (by
        intro b d h
        obtain ⟨rfl, rfl⟩ := Op.incDeadOp.inj h
        decide)⟩

theorem switchActiveBuffer_scan_witness :
    0 < exArena.activeBufferIds.length ∧
    exArena.findFreeBuffer (exArena.getActiveBufferId 0) = some 1 ∧
    (exArena.switchActiveBuffer 0 3).getActiveBufferId 0 = 1 :=
  ⟨by decide, by decide,
    (switchActiveBuffer_scan exArena 0 3 1 (by decide) (by decide)).2.2.2.2⟩

theorem getBufferEntry_validity_witness :
    exArena.buffers.length = exArena.numBuffers ∧
    ((exArena.getBufferEntry 0 2).isSome = true ↔
      0 < exArena.numBuffers ∧ ∃ content,
        exArena.buffers[0]? = some (some content) ∧ 2 < content.length) :=
  ⟨by decide, getBufferEntry_validity exArena 0 2 (by decide)⟩


theorem memStats_algebra_witness :
    exStats.WF ∧ MemStats.add MemStats.init exStats = exStats :=
  ⟨by decide,
    (memStats_algebra exStats exStats exStats exStats (by decide)).2.2.2.1⟩

end Datastore
